import Mathlib

/-!
Shallow embedding of the Coverity / GitLab merge-request reconciliation
engine of detect-gitlab-report (src/src/index.ts, the coverity-gitlab
entry point).  External helpers imported from synopsys-sig-node
(message rendering, diff-map membership, the presence test, the
no-longer-present rewrite) are modelled as abstract function parameters
collected in an Env record; everything the engine itself computes —
server-flag derivation, discussion matching and splicing, the branch
chain, the stale sweep, and the classification step — is translated
directly from the source.
-/

namespace CoverityGitlab

/-- JS substring containment on character lists, scanning every suffix. -/
def charsInclude (needle : List Char) : List Char → Bool
  | [] => needle.isEmpty
  | c :: rest => needle.isPrefixOf (c :: rest) || charsInclude needle rest

/-- The JS expression hay.includes(needle) on strings. -/
def strIncludes (hay needle : String) : Bool :=
  charsInclude needle.data hay.data

/-- Property names that an array literal of strings exposes to the JS
in-operator: the element indices, length, and the Array and Object
prototype members.  In JS, writing key in arr tests property names of
the array object, not the element values. -/
def arrayPropertyNames (arr : List String) : List String :=
  (List.range arr.length).map (fun i => toString i) ++
    ["length", "constructor", "at", "concat", "copyWithin", "entries", "every",
     "fill", "filter", "find", "findIndex", "findLast", "findLastIndex", "flat",
     "flatMap", "forEach", "includes", "indexOf", "join", "keys", "lastIndexOf",
     "map", "pop", "push", "reduce", "reduceRight", "reverse", "shift", "slice",
     "some", "sort", "splice", "toLocaleString", "toString", "unshift", "values",
     "hasOwnProperty", "isPrototypeOf", "propertyIsEnumerable", "valueOf"]

/-- The JS expression key in arr for an array literal of strings. -/
def jsInStringArray (key : String) (arr : List String) : Bool :=
  (arrayPropertyNames arr).contains key

/-- Root note of a discussion (notes![0]); only its id, body and the
position new_line field are ever examined by the engine. -/
structure Note where
  id : Nat
  body : String
  newLine : Option Nat
  deriving DecidableEq

/-- A merge-request discussion thread; the engine reads only the root
note.  The id is a numeric string in GitLab, parseInt-ed at every call
site, so it is modelled as Nat directly. -/
structure Discussion where
  id : Nat
  root : Note
  deriving DecidableEq

/-- The fields of a Coverity issue record that the engine reads. -/
structure CoverityIssue where
  mergeKey : String
  mainEventLineNumber : Nat
  strippedMainEventFilePathname : String
  deriving DecidableEq

/-- Per-mergeKey server state returned by the bulk lookup. -/
structure CoverityProjectIssue where
  action : String
  classification : String
  firstSnapshotId : Nat
  lastSnapshotId : Nat
  deriving DecidableEq

/-- One external write call issued by the engine.  The server url, token,
project id and merge-request iid are fixed for a run and omitted. -/
inductive Call where
  | update (discussionId : Nat) (noteId : Nat) (body : String)
  | createDiscussion (line : Nat) (filePath : String) (body : String)
      (baseSha : String) (headSha : String)
  | createDiscussionWithoutPosition (line : Nat) (filePath : String) (body : String)
  deriving DecidableEq

/-- Abstract collaborators from synopsys-sig-node plus the fixed per-run
configuration strings.  fileLink models the link synthesis of line 398
(which goes through the external relatavize_path helper). -/
structure Env where
  coverityCreateReviewCommentMessage : CoverityIssue → String
  coverityCreateIssueCommentMessage : CoverityIssue → String → String
  fileLink : CoverityIssue → String
  coverityIsInDiff : CoverityIssue → Bool
  coverityIsPresent : String → Bool
  coverityCreateNoLongerPresentMessage : String → String
  coverityCommentPreface : String
  baseSha : String
  headSha : String

/-- ignoredOnServer: initialised to false and overwritten only when a
server record exists (index.ts lines 384-389).  The source tests the
classification with the JS in-operator on an array literal, which tests
property names, not element values. -/
def serverIgnored (projectIssue : Option CoverityProjectIssue) : Bool :=
  match projectIssue with
  | none => false
  | some p =>
    p.action == "Ignore" || jsInStringArray p.classification ["False Positive", "Intentional"]

/-- newOnServer: initialised to true and overwritten only when a server
record exists (index.ts lines 385-388). -/
def serverNew (projectIssue : Option CoverityProjectIssue) : Bool :=
  match projectIssue with
  | none => true
  | some p => p.firstSnapshotId == p.lastSnapshotId

/-- findIndex followed by splice(index, 1): the first element satisfying
p is removed from the pool and returned together with the remainder. -/
def extractFirst (p : Discussion → Bool) : List Discussion → Option Discussion × List Discussion
  | [] => (none, [])
  | d :: rest =>
    if p d then (some d, rest)
    else ((extractFirst p rest).1, d :: (extractFirst p rest).2)

/-- Positioned match (lines 401-403): the root note position new_line
equals the issue line and the root body contains the mergeKey. -/
def positionedPred (issue : CoverityIssue) (d : Discussion) : Bool :=
  d.root.newLine == some issue.mainEventLineNumber && strIncludes d.root.body issue.mergeKey

/-- Unpositioned match (line 409): the root body contains the mergeKey. -/
def commentPred (issue : CoverityIssue) (d : Discussion) : Bool :=
  strIncludes d.root.body issue.mergeKey

/-- Result of processing one issue: the shrunken pool, the discussions
spliced out of it, the discussion the update branch acted on (if any),
and the write calls issued. -/
structure IssueStep where
  pool : List Discussion
  extracted : List Discussion
  claimed : List Discussion
  calls : List Call
  deriving DecidableEq

/-- One iteration of the issue loop (index.ts lines 380-455).  Both
extractions are performed unconditionally before the branch chain, so a
positioned and an unpositioned match can be spliced out for one issue. -/
def processIssue (env : Env) (mergeKeyToIssue : String → Option CoverityProjectIssue)
    (pool : List Discussion) (issue : CoverityIssue) : IssueStep :=
  let projectIssue := mergeKeyToIssue issue.mergeKey
  let ignoredOnServer := serverIgnored projectIssue
  let newOnServer := serverNew projectIssue
  let reviewCommentBody := env.coverityCreateReviewCommentMessage issue
  let issueCommentBody := env.coverityCreateIssueCommentMessage issue (env.fileLink issue)
  let step1 := extractFirst (positionedPred issue) pool
  let existingDiscussion := step1.1
  let step2 := extractFirst (commentPred issue) step1.2
  let existingComment := step2.1
  let calls : List Call :=
    match existingDiscussion with
    | some d =>
      if d.root.body != reviewCommentBody then
        [Call.update d.id d.root.id reviewCommentBody]
      else []
    | none =>
      match existingComment with
      | some c =>
        if c.root.body != issueCommentBody then
          [Call.update c.id c.root.id reviewCommentBody]
        else []
      | none =>
        if ignoredOnServer then []
        else if !newOnServer then []
        else if env.coverityIsInDiff issue then
          [Call.createDiscussion issue.mainEventLineNumber
            issue.strippedMainEventFilePathname reviewCommentBody env.baseSha env.headSha]
        else
          [Call.createDiscussionWithoutPosition issue.mainEventLineNumber
            issue.strippedMainEventFilePathname issueCommentBody]
  { pool := step2.2
    extracted := existingDiscussion.toList ++ existingComment.toList
    claimed :=
      match existingDiscussion with
      | some d => [d]
      | none =>
        match existingComment with
        | some c => [c]
        | none => []
    calls := calls }

/-- The whole issue loop, folding the shrinking pool through the issues
in findings-document order. -/
def processIssues (env : Env) (mergeKeyToIssue : String → Option CoverityProjectIssue)
    (pool : List Discussion) : List CoverityIssue → IssueStep
  | [] => { pool := pool, extracted := [], claimed := [], calls := [] }
  | issue :: rest =>
    let s := processIssue env mergeKeyToIssue pool issue
    let t := processIssues env mergeKeyToIssue s.pool rest
    { pool := t.pool
      extracted := s.extracted ++ t.extracted
      claimed := s.claimed ++ t.claimed
      calls := s.calls ++ t.calls }

/-- The post-loop sweep (lines 458-467): each discussion remaining in
the pool whose body passes coverityIsPresent gets one update rewriting
it to its no-longer-present variant; the others get no call. -/
def sweepCalls (env : Env) (pool : List Discussion) : List Call :=
  pool.filterMap (fun d =>
    if env.coverityIsPresent d.root.body then
      some (Call.update d.id d.root.id (env.coverityCreateNoLongerPresentMessage d.root.body))
    else none)

/-- Does the call address the discussion with the given id? -/
def callTargets (c : Call) (discussionId : Nat) : Bool :=
  match c with
  | Call.update d _ _ => d == discussionId
  | _ => false

/-- Map.get over the association list returned by the bulk lookup. -/
def mapGet (m : List (String × CoverityProjectIssue)) (key : String) :
    Option CoverityProjectIssue :=
  (m.find? (fun kv => kv.1 == key)).map Prod.snd

/-- Lines 354-372: mergeKeyToIssue starts empty; with incomplete Coverity
connection info classification is skipped with a warning; otherwise the
bulk lookup runs only when the issue list is non-empty, and a lookup
failure exits the process (modelled as Except.error). -/
def classifyMergeKeys (canCheckCoverity : Bool) (issues : List CoverityIssue)
    (lookupResult : Except String (List (String × CoverityProjectIssue))) :
    Except Unit (List (String × CoverityProjectIssue)) :=
  if !canCheckCoverity then Except.ok []
  else if issues.length > 0 then
    match lookupResult with
    | Except.ok m => Except.ok m
    | Except.error _ => Except.error ()
  else Except.ok []

/-- The merge-request reconciliation portion of main (lines 354-467):
classification, ownership filter over the listed discussions, the
per-issue loop, then the stale sweep.  Returns the ordered list of write
calls, or Except.error () when a bulk-lookup failure aborts the run
before any discussion is examined. -/
def runMain (env : Env) (canCheckCoverity : Bool)
    (lookupResult : Except String (List (String × CoverityProjectIssue)))
    (issues : List CoverityIssue) (discussions : List Discussion) :
    Except Unit (List Call) :=
  match classifyMergeKeys canCheckCoverity issues lookupResult with
  | Except.error e => Except.error e
  | Except.ok m =>
    let reviewDiscussions := discussions.filter
      (fun d => strIncludes d.root.body env.coverityCommentPreface)
    let t := processIssues env (mapGet m) reviewDiscussions issues
    Except.ok (t.calls ++ sweepCalls env t.pool)

/-- Effect of update calls on the discussion-service state: the root
note body of the addressed discussion is replaced.  Used to feed one
resulting state of one run into a second run. -/
def applyUpdateCalls (pool : List Discussion) (calls : List Call) : List Discussion :=
  calls.foldl (fun p c =>
    match c with
    | Call.update discussionId noteId body =>
      p.map (fun d =>
        if d.id == discussionId && d.root.id == noteId then
          { d with root := { d.root with body := body } }
        else d)
    | _ => p) pool

/-- Attach an outcome from the failure oracle to each attempted call, in
emission order. -/
def attachOutcomes (oracle : Nat → Bool) (k : Nat) : List Call → List (Call × Bool)
  | [] => []
  | c :: rest => (c, oracle k) :: attachOutcomes oracle (k + 1) rest

/-- The calls that failed; each produces one logger.error line in the
catch handler. -/
def failedCalls (l : List (Call × Bool)) : List Call :=
  (l.filter (fun p => !p.2)).map Prod.fst

/-- IssueStep instrumented with per-call outcomes and the error log. -/
structure IssueStepT where
  pool : List Discussion
  calls : List (Call × Bool)
  logs : List Call
  next : Nat
  deriving DecidableEq

/-- processIssue with call outcomes: every awaited create and update
carries a catch handler that only logs (lines 421-423, 432-434,
445-447, 452-454), so the pool and the attempted calls are exactly
those of processIssue; the oracle decides nothing but the outcome flags
and the log. -/
def processIssueT (env : Env) (mergeKeyToIssue : String → Option CoverityProjectIssue)
    (oracle : Nat → Bool) (k : Nat) (pool : List Discussion)
    (issue : CoverityIssue) : IssueStepT :=
  let s := processIssue env mergeKeyToIssue pool issue
  let tagged := attachOutcomes oracle k s.calls
  { pool := s.pool, calls := tagged, logs := failedCalls tagged, next := k + s.calls.length }

/-- The issue loop with call outcomes threaded through. -/
def processIssuesT (env : Env) (mergeKeyToIssue : String → Option CoverityProjectIssue)
    (oracle : Nat → Bool) (k : Nat) (pool : List Discussion) :
    List CoverityIssue → IssueStepT
  | [] => { pool := pool, calls := [], logs := [], next := k }
  | issue :: rest =>
    let s := processIssueT env mergeKeyToIssue oracle k pool issue
    let t := processIssuesT env mergeKeyToIssue oracle s.next s.pool rest
    { pool := t.pool, calls := s.calls ++ t.calls, logs := s.logs ++ t.logs, next := t.next }

/-- runMain with per-call outcomes: the sweep updates also carry
log-only catch handlers (lines 463-465). -/
def runMainT (env : Env) (canCheckCoverity : Bool)
    (lookupResult : Except String (List (String × CoverityProjectIssue)))
    (oracle : Nat → Bool)
    (issues : List CoverityIssue) (discussions : List Discussion) :
    Except Unit (List (Call × Bool)) :=
  match classifyMergeKeys canCheckCoverity issues lookupResult with
  | Except.error e => Except.error e
  | Except.ok m =>
    let reviewDiscussions := discussions.filter
      (fun d => strIncludes d.root.body env.coverityCommentPreface)
    let t := processIssuesT env (mapGet m) oracle 0 reviewDiscussions issues
    Except.ok (t.calls ++ attachOutcomes oracle t.next (sweepCalls env t.pool))

/-- Modelled from the spec: ignoredOnServer = action == Ignore OR
classification in the two-element set False Positive, Intentional — read
as set membership of the classification value, as the spec intends. -/
def coverityIgnoredOnServerSpec (p : CoverityProjectIssue) : Bool :=
  p.action == "Ignore" ||
    (p.classification == "False Positive" || p.classification == "Intentional")

theorem processIssue_pool_eq (env : Env) (mk : String → Option CoverityProjectIssue)
    (pool : List Discussion) (issue : CoverityIssue) :
    (processIssue env mk pool issue).pool =
      (extractFirst (commentPred issue) (extractFirst (positionedPred issue) pool).2).2 := rfl

theorem processIssue_extracted_eq (env : Env) (mk : String → Option CoverityProjectIssue)
    (pool : List Discussion) (issue : CoverityIssue) :
    (processIssue env mk pool issue).extracted =
      (extractFirst (positionedPred issue) pool).1.toList ++
        (extractFirst (commentPred issue) (extractFirst (positionedPred issue) pool).2).1.toList := rfl

theorem extractFirst_perm (p : Discussion → Bool) (l : List Discussion) :
    l.Perm ((extractFirst p l).1.toList ++ (extractFirst p l).2) := by
  induction l with
  | nil => simp [extractFirst]
  | cons a rest ih =>
    cases hpa : p a with
    | true => simp [extractFirst, hpa]
    | false =>
      simp only [extractFirst, hpa, Bool.false_eq_true, if_false]
      exact (ih.cons a).trans List.perm_middle.symm

theorem extractFirst_none_of_all {p : Discussion → Bool} :
    ∀ {l : List Discussion}, (∀ d ∈ l, p d = false) → extractFirst p l = (none, l)
  | [], _ => rfl
  | a :: rest, h => by
    have ha := h a (List.mem_cons_self a rest)
    have hr := extractFirst_none_of_all (fun d hd => h d (List.mem_cons_of_mem a hd))
    simp [extractFirst, ha, hr]

theorem processIssue_perm (env : Env) (mk : String → Option CoverityProjectIssue)
    (pool : List Discussion) (issue : CoverityIssue) :
    pool.Perm ((processIssue env mk pool issue).extracted ++ (processIssue env mk pool issue).pool) := by
  have h1 := extractFirst_perm (positionedPred issue) pool
  have h2 := extractFirst_perm (commentPred issue) (extractFirst (positionedPred issue) pool).2
  rw [processIssue_extracted_eq, processIssue_pool_eq, List.append_assoc]
  exact h1.trans (List.Perm.append_left _ h2)

theorem processIssues_perm (env : Env) (mk : String → Option CoverityProjectIssue) :
    ∀ (issues : List CoverityIssue) (pool : List Discussion),
      pool.Perm ((processIssues env mk pool issues).extracted ++
        (processIssues env mk pool issues).pool)
  | [], pool => by simp [processIssues]
  | issue :: rest, pool => by
    have h1 := processIssue_perm env mk pool issue
    have h2 := processIssues_perm env mk rest (processIssue env mk pool issue).pool
    simp only [processIssues]
    exact (h1.trans (List.Perm.append_left _ h2)).trans
      (List.Perm.of_eq (List.append_assoc _ _ _).symm)

theorem processIssue_claimed_sublist (env : Env) (mk : String → Option CoverityProjectIssue)
    (pool : List Discussion) (issue : CoverityIssue) :
    List.Sublist (processIssue env mk pool issue).claimed
      (processIssue env mk pool issue).extracted := by
  cases h1 : (extractFirst (positionedPred issue) pool).1 with
  | some d => simp [processIssue, h1, List.sublist_append_left]
  | none =>
    cases h2 : (extractFirst (commentPred issue) (extractFirst (positionedPred issue) pool).2).1 with
    | some c => simp [processIssue, h1, h2]
    | none => simp [processIssue, h1, h2]

theorem processIssues_claimed_sublist (env : Env) (mk : String → Option CoverityProjectIssue) :
    ∀ (issues : List CoverityIssue) (pool : List Discussion),
      List.Sublist (processIssues env mk pool issues).claimed
        (processIssues env mk pool issues).extracted
  | [], pool => by simp [processIssues]
  | issue :: rest, pool => by
    simp only [processIssues]
    exact (processIssue_claimed_sublist env mk pool issue).append
      (processIssues_claimed_sublist env mk rest (processIssue env mk pool issue).pool)

/-- C1: over any run, no two issues claim the same discussion id — a
discussion extracted for one issue leaves the pool, so the claimed ids
are distinct and absent from the final pool (given that the listing
service returns distinct discussion ids). -/
theorem at_most_one_match (env : Env) (mk : String → Option CoverityProjectIssue)
    (pool : List Discussion) (issues : List CoverityIssue)
    (h : (pool.map Discussion.id).Nodup) :
    (((processIssues env mk pool issues).claimed).map Discussion.id).Nodup ∧
      ∀ d ∈ (processIssues env mk pool issues).claimed,
        d.id ∉ ((processIssues env mk pool issues).pool).map Discussion.id := by
  have hperm := (processIssues_perm env mk issues pool).map Discussion.id
  rw [List.map_append] at hperm
  have hnd := hperm.nodup h
  have hsub := (processIssues_claimed_sublist env mk issues pool).map Discussion.id
  refine ⟨List.Nodup.sublist hsub (List.Nodup.of_append_left hnd), ?_⟩
  intro d hd hmem
  exact List.disjoint_of_nodup_append hnd
    (hsub.subset (List.mem_map_of_mem Discussion.id hd)) hmem

/-- Test fixture: a rendering environment whose review and issue bodies
are the preface P followed by R or I and the mergeKey. -/
def testEnv (inDiff : Bool) (present : String → Bool) : Env :=
  { coverityCreateReviewCommentMessage := fun i => "P R " ++ i.mergeKey
    coverityCreateIssueCommentMessage := fun i _ => "P I " ++ i.mergeKey
    fileLink := fun _ => ""
    coverityIsInDiff := fun _ => inDiff
    coverityIsPresent := present
    coverityCreateNoLongerPresentMessage := fun b => "GONE " ++ b
    coverityCommentPreface := "P"
    baseSha := ""
    headSha := "" }

/-- Test fixture: one Coverity issue with mergeKey K at a.c line 5. -/
def issueK : CoverityIssue :=
  { mergeKey := "K", mainEventLineNumber := 5, strippedMainEventFilePathname := "a.c" }

/-- Witness for C1 at a concrete run: two issues with the same mergeKey
against a pool of two matching discussions with distinct ids. -/
theorem at_most_one_match_witness :
    (([⟨1, ⟨10, "P x K", some 5⟩⟩, ⟨2, ⟨20, "P y K", none⟩⟩] :
        List Discussion).map Discussion.id).Nodup ∧
    (((processIssues (testEnv true (fun _ => true)) (fun _ => none)
        [⟨1, ⟨10, "P x K", some 5⟩⟩, ⟨2, ⟨20, "P y K", none⟩⟩]
        [issueK, issueK]).claimed).map Discussion.id).Nodup :=
  ⟨by decide, (at_most_one_match (testEnv true (fun _ => true)) (fun _ => none)
      [⟨1, ⟨10, "P x K", some 5⟩⟩, ⟨2, ⟨20, "P y K", none⟩⟩]
      [issueK, issueK] (by decide)).1⟩

/-- C3 (code bug): the source computes ignoredOnServer with the JS
in-operator on an array literal, which tests property names rather than
element values, so a classification of False Positive is not treated as
ignored although the spec requires it; the spec-side definition gives
true at the same record, and an index-like classification such as the
string 0 would wrongly count as ignored. -/
theorem classification_membership_bug :
    serverIgnored (some ⟨"Undecided", "False Positive", 1, 2⟩) = false ∧
    coverityIgnoredOnServerSpec ⟨"Undecided", "False Positive", 1, 2⟩ = true ∧
    jsInStringArray "0" ["False Positive", "Intentional"] = true := by decide

/-- C8: when the Coverity connection info is complete and the findings
set is non-empty, a bulk-lookup failure aborts the whole run with no
discussion matched, created or updated. -/
theorem lookup_failure_aborts_run (env : Env) (msg : String) (issue : CoverityIssue)
    (rest : List CoverityIssue) (discussions : List Discussion) :
    runMain env true (Except.error msg) (issue :: rest) discussions = Except.error () := by
  simp [runMain, classifyMergeKeys]

/-- C10: with complete connection info but an empty findings set, the
bulk lookup is never consulted — the classification map stays empty and
the run proceeds to the sweep for any lookupResult, including failures. -/
theorem empty_findings_skip_lookup (env : Env)
    (lookupResult : Except String (List (String × CoverityProjectIssue)))
    (discussions : List Discussion) :
    classifyMergeKeys true [] lookupResult = Except.ok [] ∧
    runMain env true lookupResult [] discussions =
      Except.ok (sweepCalls env (discussions.filter
        (fun d => strIncludes d.root.body env.coverityCommentPreface))) := by
  constructor
  · rfl
  · simp [runMain, classifyMergeKeys, processIssues]

theorem sweepCalls_cons (env : Env) (e : Discussion) (rest : List Discussion) :
    sweepCalls env (e :: rest) =
      (if env.coverityIsPresent e.root.body then
        [Call.update e.id e.root.id (env.coverityCreateNoLongerPresentMessage e.root.body)]
      else []) ++ sweepCalls env rest := by
  cases hp : env.coverityIsPresent e.root.body <;> simp [sweepCalls, hp]

theorem sweepCalls_count_zero (env : Env) (i : Nat) :
    ∀ (pool : List Discussion), i ∉ pool.map Discussion.id →
      (sweepCalls env pool).countP (fun c => callTargets c i) = 0 := by
  intro pool
  induction pool with
  | nil => intro _; rfl
  | cons e rest ih =>
    intro h
    rw [List.map_cons] at h
    have hni : i ∉ rest.map Discussion.id := fun hm => h (List.mem_cons_of_mem _ hm)
    have hne : (e.id == i) = false := by
      refine beq_eq_false_iff_ne.mpr ?_
      intro he
      exact h (he ▸ List.mem_cons_self _ _)
    rw [sweepCalls_cons]
    cases hp : env.coverityIsPresent e.root.body
    · simp only [hp, Bool.false_eq_true, if_false, List.nil_append]
      exact ih hni
    · simp only [hp, if_true, List.singleton_append, List.countP_cons]
      rw [ih hni]
      simp [callTargets, hne]

theorem sweepCalls_count (env : Env) (d : Discussion) :
    ∀ (pool : List Discussion), (pool.map Discussion.id).Nodup → d ∈ pool →
      (sweepCalls env pool).countP (fun c => callTargets c d.id) =
        (if env.coverityIsPresent d.root.body then 1 else 0) ∧
      (env.coverityIsPresent d.root.body = true →
        Call.update d.id d.root.id (env.coverityCreateNoLongerPresentMessage d.root.body) ∈
          sweepCalls env pool) := by
  intro pool
  induction pool with
  | nil => intro _ hd; cases hd
  | cons e rest ih =>
    intro hnd hd
    rw [List.map_cons] at hnd
    obtain ⟨hnd1, hnd2⟩ := List.nodup_cons.mp hnd
    rcases List.mem_cons.mp hd with he | hd2
    · subst he
      constructor
      · rw [sweepCalls_cons]
        cases hp : env.coverityIsPresent d.root.body
        · simp only [hp, Bool.false_eq_true, if_false, List.nil_append]
          exact sweepCalls_count_zero env d.id rest hnd1
        · simp only [hp, if_true, List.singleton_append, List.countP_cons]
          rw [sweepCalls_count_zero env d.id rest hnd1]
          simp [callTargets]
      · intro hp
        rw [sweepCalls_cons, hp]
        simp
    · have hne : (e.id == d.id) = false := by
        refine beq_eq_false_iff_ne.mpr ?_
        intro he
        exact hnd1 (he ▸ List.mem_map_of_mem Discussion.id hd2)
      obtain ⟨ih1, ih2⟩ := ih hnd2 hd2
      constructor
      · rw [sweepCalls_cons]
        cases hp : env.coverityIsPresent e.root.body
        · simp only [hp, Bool.false_eq_true, if_false, List.nil_append]
          exact ih1
        · simp only [hp, if_true, List.singleton_append, List.countP_cons]
          rw [ih1]
          simp [callTargets, hne]
      · intro hp
        rw [sweepCalls_cons]
        exact List.mem_append_right _ (ih2 hp)

/-- C2: after the issue loop, each discussion left in the pool whose
body passes the presence check receives exactly one sweep update, and
that update rewrites it to the no-longer-present variant of its body; a
remaining discussion whose body fails the check receives no sweep call. -/
theorem resolution_sweep_exactly_once (env : Env)
    (mk : String → Option CoverityProjectIssue) (pool : List Discussion)
    (issues : List CoverityIssue) (d : Discussion)
    (h : (pool.map Discussion.id).Nodup)
    (hd : d ∈ (processIssues env mk pool issues).pool) :
    (sweepCalls env (processIssues env mk pool issues).pool).countP
        (fun c => callTargets c d.id) =
      (if env.coverityIsPresent d.root.body then 1 else 0) ∧
    (env.coverityIsPresent d.root.body = true →
      Call.update d.id d.root.id (env.coverityCreateNoLongerPresentMessage d.root.body) ∈
        sweepCalls env (processIssues env mk pool issues).pool) := by
  have hperm := (processIssues_perm env mk issues pool).map Discussion.id
  rw [List.map_append] at hperm
  have hnd := (hperm.nodup h).of_append_right
  exact sweepCalls_count env d _ hnd hd

/-- Witness for C2: a run with no issues leaves the single marked
discussion in the pool, and the sweep updates it exactly once. -/
theorem resolution_sweep_exactly_once_witness :
    (sweepCalls (testEnv true (fun b => strIncludes b "K"))
        (processIssues (testEnv true (fun b => strIncludes b "K")) (fun _ => none)
          [⟨9, ⟨4, "P K", none⟩⟩] []).pool).countP
        (fun c => callTargets c 9) = (if strIncludes "P K" "K" then 1 else 0) ∧
    (strIncludes "P K" "K" = true →
      Call.update 9 4 "GONE P K" ∈
        sweepCalls (testEnv true (fun b => strIncludes b "K"))
          (processIssues (testEnv true (fun b => strIncludes b "K")) (fun _ => none)
            [⟨9, ⟨4, "P K", none⟩⟩] []).pool) :=
  resolution_sweep_exactly_once (testEnv true (fun b => strIncludes b "K")) (fun _ => none)
    [⟨9, ⟨4, "P K", none⟩⟩] [] ⟨9, ⟨4, "P K", none⟩⟩ (by decide) (by decide)

/-- C7: an issue with no positioned and no unpositioned match in the
pool whose server state is ignored, or known and not new, produces no
create and no update call and leaves the pool unchanged. -/
theorem ignored_or_known_issue_skips (env : Env)
    (mk : String → Option CoverityProjectIssue) (pool : List Discussion)
    (issue : CoverityIssue)
    (hno : ∀ d ∈ pool, strIncludes d.root.body issue.mergeKey = false)
    (hbr : serverIgnored (mk issue.mergeKey) = true ∨
      (serverIgnored (mk issue.mergeKey) = false ∧ serverNew (mk issue.mergeKey) = false)) :
    (processIssue env mk pool issue).calls = [] ∧
      (processIssue env mk pool issue).pool = pool := by
  have hpos : ∀ d ∈ pool, positionedPred issue d = false := by
    intro d hd; simp [positionedPred, hno d hd]
  have hcom : ∀ d ∈ pool, commentPred issue d = false := by
    intro d hd; simp [commentPred, hno d hd]
  have h1 := extractFirst_none_of_all hpos
  have h2 := extractFirst_none_of_all hcom
  rcases hbr with hig | ⟨hig, hnew⟩
  · constructor <;> simp [processIssue, h1, h2, hig]
  · constructor <;> simp [processIssue, h1, h2, hig, hnew]

/-- Witness for C7: a server-ignored issue against an empty pool causes
no call. -/
theorem ignored_or_known_issue_skips_witness :
    (processIssue (testEnv true (fun _ => true))
        (fun _ => some ⟨"Ignore", "Bug", 1, 2⟩) [] issueK).calls = [] ∧
    (processIssue (testEnv true (fun _ => true))
        (fun _ => some ⟨"Ignore", "Bug", 1, 2⟩) [] issueK).pool = [] :=
  ignored_or_known_issue_skips (testEnv true (fun _ => true))
    (fun _ => some ⟨"Ignore", "Bug", 1, 2⟩) [] issueK
    (by intro d hd; cases hd) (Or.inl (by decide))

/-- C4 counterexample: with a positioned and an unpositioned discussion
both matching the mergeKey of the issue, the positioned one is chosen for
the update, but the unpositioned one is also spliced out of the pool —
the final pool is empty and the run (whose presence check accepts every
body) emits no sweep call for discussion 2, so the unpositioned
discussion did not remain eligible for later matches or the sweep. -/
theorem positioned_and_unpositioned_both_removed_cex :
    (processIssue (testEnv true (fun _ => true)) (fun _ => none)
      [⟨1, ⟨10, "P pos K", some 5⟩⟩, ⟨2, ⟨20, "P un K", none⟩⟩] issueK).claimed =
      [⟨1, ⟨10, "P pos K", some 5⟩⟩] ∧
    (processIssue (testEnv true (fun _ => true)) (fun _ => none)
      [⟨1, ⟨10, "P pos K", some 5⟩⟩, ⟨2, ⟨20, "P un K", none⟩⟩] issueK).pool = [] ∧
    runMain (testEnv true (fun _ => true)) true (Except.ok []) [issueK]
      [⟨1, ⟨10, "P pos K", some 5⟩⟩, ⟨2, ⟨20, "P un K", none⟩⟩] =
      Except.ok [Call.update 1 10 "P R K"] :=
  ⟨rfl, rfl, rfl⟩

/-- C4 (amended): when the pool holds a positioned match d and the
remainder holds an unpositioned match c, the positioned one is chosen
for the update, but both are removed from the pool: the step ends with
the doubly-shrunken pool and only d is claimed. -/
theorem positioned_priority_removes_both (env : Env)
    (mk : String → Option CoverityProjectIssue) (pool : List Discussion)
    (issue : CoverityIssue) (d c : Discussion) (pool1 pool2 : List Discussion)
    (h1 : extractFirst (positionedPred issue) pool = (some d, pool1))
    (h2 : extractFirst (commentPred issue) pool1 = (some c, pool2)) :
    (processIssue env mk pool issue).claimed = [d] ∧
    (processIssue env mk pool issue).pool = pool2 ∧
    pool.length = pool2.length + 2 ∧
    (processIssue env mk pool issue).calls =
      (if d.root.body != env.coverityCreateReviewCommentMessage issue then
        [Call.update d.id d.root.id (env.coverityCreateReviewCommentMessage issue)]
      else []) := by
  have l1 := (extractFirst_perm (positionedPred issue) pool).length_eq
  have l2 := (extractFirst_perm (commentPred issue) pool1).length_eq
  rw [h1] at l1
  rw [h2] at l2
  simp only [Option.toList_some, List.length_append, List.length_cons,
    List.length_nil] at l1 l2
  refine ⟨?_, ?_, ?_, ?_⟩
  · simp [processIssue, h1, h2]
  · simp [processIssue, h1, h2]
  · omega
  · simp [processIssue, h1, h2]

/-- Witness for the amended C4 at a concrete pool of two matches. -/
theorem positioned_priority_removes_both_witness :
    (processIssue (testEnv false (fun _ => true)) (fun _ => none)
      [⟨1, ⟨10, "P pos K", some 5⟩⟩, ⟨2, ⟨20, "P un K", none⟩⟩] issueK).claimed =
      [⟨1, ⟨10, "P pos K", some 5⟩⟩] ∧
    (processIssue (testEnv false (fun _ => true)) (fun _ => none)
      [⟨1, ⟨10, "P pos K", some 5⟩⟩, ⟨2, ⟨20, "P un K", none⟩⟩] issueK).pool = [] ∧
    ([⟨1, ⟨10, "P pos K", some 5⟩⟩, ⟨2, ⟨20, "P un K", none⟩⟩] :
      List Discussion).length = ([] : List Discussion).length + 2 ∧
    (processIssue (testEnv false (fun _ => true)) (fun _ => none)
      [⟨1, ⟨10, "P pos K", some 5⟩⟩, ⟨2, ⟨20, "P un K", none⟩⟩] issueK).calls =
      (if ("P pos K" : String) != "P R K" then [Call.update 1 10 "P R K"] else []) := by
  have h := positioned_priority_removes_both (testEnv false (fun _ => true)) (fun _ => none)
    [⟨1, ⟨10, "P pos K", some 5⟩⟩, ⟨2, ⟨20, "P un K", none⟩⟩] issueK
    ⟨1, ⟨10, "P pos K", some 5⟩⟩ ⟨2, ⟨20, "P un K", none⟩⟩
    [⟨2, ⟨20, "P un K", none⟩⟩] [] (by decide) (by decide)
  simpa [testEnv, issueK] using h

/-- C5 counterexample: one unpositioned discussion whose body already
equals the review-style message.  The run updates it (the skip check
compares against the issue-style body while the update writes the
review-style body), yet the update leaves the discussion state
unchanged — so a second run over the identical state issues the same
update again, and no run over this fixed state is call-free. -/
theorem second_run_repeats_unpositioned_update :
    runMain (testEnv false (fun _ => true)) true (Except.ok []) [issueK]
      [⟨7, ⟨3, "P R K", none⟩⟩] = Except.ok [Call.update 7 3 "P R K"] ∧
    applyUpdateCalls [⟨7, ⟨3, "P R K", none⟩⟩] [Call.update 7 3 "P R K"] =
      [⟨7, ⟨3, "P R K", none⟩⟩] :=
  ⟨rfl, rfl⟩

/-- C5 (amended): in the matched-positioned branch the update is issued
exactly when the existing body differs from the review-style body that
the update writes (so that branch is idempotent); in the
matched-unpositioned branch the skip check compares the existing body
against the issue-style body while the update writes the review-style
body, so that branch re-updates on every run any discussion whose body
equals the review-style body but not the issue-style one. -/
theorem matched_update_skip_characterization (env : Env)
    (mk : String → Option CoverityProjectIssue) (pool : List Discussion)
    (issue : CoverityIssue) :
    (∀ d pool1, extractFirst (positionedPred issue) pool = (some d, pool1) →
      (processIssue env mk pool issue).calls =
        (if d.root.body != env.coverityCreateReviewCommentMessage issue then
          [Call.update d.id d.root.id (env.coverityCreateReviewCommentMessage issue)]
        else [])) ∧
    (∀ pool1 c pool2, extractFirst (positionedPred issue) pool = (none, pool1) →
      extractFirst (commentPred issue) pool1 = (some c, pool2) →
      (processIssue env mk pool issue).calls =
        (if c.root.body != env.coverityCreateIssueCommentMessage issue (env.fileLink issue) then
          [Call.update c.id c.root.id (env.coverityCreateReviewCommentMessage issue)]
        else [])) := by
  constructor
  · intro d pool1 h1
    simp [processIssue, h1]
  · intro pool1 c pool2 h1 h2
    simp [processIssue, h1, h2]

/-- Witness for the amended C5: the unpositioned branch updates a body
that already equals the review-style message because the comparison is
against the issue-style message. -/
theorem matched_update_skip_characterization_witness :
    (processIssue (testEnv false (fun _ => true)) (fun _ => none)
      [⟨7, ⟨3, "P R K", none⟩⟩] issueK).calls = [Call.update 7 3 "P R K"] := by
  have h := (matched_update_skip_characterization (testEnv false (fun _ => true))
      (fun _ => none) [⟨7, ⟨3, "P R K", none⟩⟩] issueK).2
    [⟨7, ⟨3, "P R K", none⟩⟩] ⟨7, ⟨3, "P R K", none⟩⟩ [] (by decide) (by decide)
  simpa [testEnv, issueK] using h

/-- C6 counterexample: for a mergeKey absent from the server lookup the
code leaves newOnServer at its initial value true (not false), so with
no matching discussion the issue is not skipped: with the issue inside
the diff the run emits a positioned create call. -/
theorem unknown_merge_key_not_skipped_cex :
    serverNew none = true ∧
    runMain (testEnv true (fun _ => true)) true (Except.ok []) [issueK] [] =
      Except.ok [Call.createDiscussion 5 "a.c" "P R K" "" ""] :=
  ⟨rfl, rfl⟩

/-- C6 (amended): an issue whose mergeKey is absent from the lookup is
treated as not-ignored and NEW (newOnServer defaults to true), so with
no matching discussion it falls through to the diff check and a create
call is emitted: positioned when the issue is in the diff, otherwise
unpositioned. -/
theorem unknown_merge_key_falls_to_diff_check (env : Env)
    (mk : String → Option CoverityProjectIssue) (pool : List Discussion)
    (issue : CoverityIssue)
    (hmk : mk issue.mergeKey = none)
    (hno : ∀ d ∈ pool, strIncludes d.root.body issue.mergeKey = false) :
    (processIssue env mk pool issue).calls =
      (if env.coverityIsInDiff issue then
        [Call.createDiscussion issue.mainEventLineNumber issue.strippedMainEventFilePathname
          (env.coverityCreateReviewCommentMessage issue) env.baseSha env.headSha]
      else
        [Call.createDiscussionWithoutPosition issue.mainEventLineNumber
          issue.strippedMainEventFilePathname
          (env.coverityCreateIssueCommentMessage issue (env.fileLink issue))]) := by
  have hpos : ∀ d ∈ pool, positionedPred issue d = false := by
    intro d hd; simp [positionedPred, hno d hd]
  have hcom : ∀ d ∈ pool, commentPred issue d = false := by
    intro d hd; simp [commentPred, hno d hd]
  have h1 := extractFirst_none_of_all hpos
  have h2 := extractFirst_none_of_all hcom
  simp [processIssue, h1, h2, hmk, serverIgnored, serverNew]

/-- Witness for the amended C6: unknown key, empty pool, issue outside
the diff gives one unpositioned create. -/
theorem unknown_merge_key_falls_to_diff_check_witness :
    (processIssue (testEnv false (fun _ => true)) (fun _ => none) [] issueK).calls =
      [Call.createDiscussionWithoutPosition 5 "a.c" "P I K"] := by
  have h := unknown_merge_key_falls_to_diff_check (testEnv false (fun _ => true))
    (fun _ => none) [] issueK rfl (by intro d hd; cases hd)
  simpa [testEnv, issueK] using h

theorem attachOutcomes_map_fst (oracle : Nat → Bool) :
    ∀ (k : Nat) (l : List Call), (attachOutcomes oracle k l).map Prod.fst = l
  | _, [] => rfl
  | k, c :: rest => by
    simp [attachOutcomes, attachOutcomes_map_fst oracle (k + 1) rest]

theorem processIssuesT_fst (env : Env) (mk : String → Option CoverityProjectIssue)
    (oracle : Nat → Bool) :
    ∀ (issues : List CoverityIssue) (k : Nat) (pool : List Discussion),
      (processIssuesT env mk oracle k pool issues).pool =
        (processIssues env mk pool issues).pool ∧
      (processIssuesT env mk oracle k pool issues).calls.map Prod.fst =
        (processIssues env mk pool issues).calls
  | [], k, pool => by simp [processIssuesT, processIssues]
  | issue :: rest, k, pool => by
    have ih := processIssuesT_fst env mk oracle rest
      (k + (processIssue env mk pool issue).calls.length) (processIssue env mk pool issue).pool
    simp [processIssuesT, processIssueT, processIssues, attachOutcomes_map_fst, ih.1, ih.2]

/-- C9: a create or update failure is caught by its log-only handler:
for every failure oracle the run neither aborts nor changes — erasing
the outcome flags from the instrumented run gives exactly the calls of
the plain run, so every other issue and the final sweep proceed as in
the all-success run. -/
theorem call_failures_do_not_change_run (env : Env) (canCheckCoverity : Bool)
    (lookupResult : Except String (List (String × CoverityProjectIssue)))
    (oracle : Nat → Bool) (issues : List CoverityIssue)
    (discussions : List Discussion) :
    Except.map (fun l => l.map Prod.fst)
        (runMainT env canCheckCoverity lookupResult oracle issues discussions) =
      runMain env canCheckCoverity lookupResult issues discussions := by
  unfold runMainT runMain
  cases classifyMergeKeys canCheckCoverity issues lookupResult with
  | error e => rfl
  | ok m =>
    have h := processIssuesT_fst env (mapGet m) oracle issues 0
      (discussions.filter (fun d => strIncludes d.root.body env.coverityCommentPreface))
    simp [Except.map, h.1, h.2, attachOutcomes_map_fst]

end CoverityGitlab
